import Mathlib

/-!
Verification of the MT5_Bot trading engine (src/bot2.py) against its
natural-language specification.

The Python source is shallowly embedded: prices, balances and volumes are
modelled as rationals (ℚ), pandas frames as lists of rows of optional
rationals (a `none` cell models NaN), MetaTrader gateway lookups as
`Option`-valued inputs, and the requests/logs a function emits as explicit
return values.  Python code that raises is modelled with `Except`.
-/

namespace MT5Bot

/-! ## Signal generation (bot2.py, check_for_signals)

`check_for_signals` computes 20- and 50-bar rolling means of the `close`
column, drops the warm-up rows (`dropna`), and compares the last two rows.
The close-price level of the computation is embedded first; the frame level
(including the in-place mutation of the caller's DataFrame) follows below.
-/

/-- Average of the `w` closes ending at index `i` (the value
`data['close'].rolling(window=w).mean()` puts at row `i` when a full
window is available). -/
def windowAvg (w : Nat) (xs : List ℚ) (i : Nat) : ℚ :=
  (((List.range w).map fun k => xs.getD (i + 1 - w + k) 0).sum) / w

/-- Cell of a rolling-mean column: the window average when row `i` has a
full `w`-bar lookback, NaN (`none`) otherwise. -/
def smaCell (w : Nat) (xs : List ℚ) (i : Nat) : Option ℚ :=
  if w ≤ i + 1 then some (windowAvg w xs i) else none

/-- Embedding of `data['close'].rolling(window=w).mean()`. -/
def rollingMean (w : Nat) (xs : List ℚ) : List (Option ℚ) :=
  (List.range xs.length).map (smaCell w xs)

/-- A row of the two SMA columns survives `dropna` iff both cells are
non-NaN. -/
def joinSMA : Option ℚ × Option ℚ → Option (ℚ × ℚ)
  | (some a, some b) => some (a, b)
  | _ => none

/-- The (SMA_short, SMA_long) rows remaining after `data.dropna()`:
rows of the original frame carry no NaN, so exactly the rows lacking a
full 20- or 50-bar window are discarded. -/
def rowsAfterDropna (xs : List ℚ) : List (ℚ × ℚ) :=
  ((rollingMean 20 xs).zip (rollingMean 50 xs)).filterMap joinSMA

/-- Embedding of `check_for_signals` (bot2.py lines 234-259) at the level
of the close-price series: SMA(20) and SMA(50) are computed, warm-up rows
are dropped, and the last two remaining rows decide the signal. -/
def check_for_signals_closes (xs : List ℚ) : String :=
  let rows := rowsAfterDropna xs
  if rows.length < 2 then "HOLD"
  else
    let last_row := rows.getD (rows.length - 1) (0, 0)
    let prev_row := rows.getD (rows.length - 2) (0, 0)
    if last_row.1 > last_row.2 ∧ prev_row.1 ≤ prev_row.2 then "BUY"
    else if last_row.1 < last_row.2 ∧ prev_row.1 ≥ prev_row.2 then "SELL"
    else "HOLD"

/-! ### List helper lemmas -/

/-- `filterMap` of an `if`-guarded function is `map` after `filter`. -/
theorem filterMap_ite_eq_filter_map {α β : Type} (p : α → Bool) (f : α → β) :
    ∀ l : List α,
      l.filterMap (fun x => if p x then some (f x) else none) = (l.filter p).map f := by
  intro l
  induction l with
  | nil => rfl
  | cons a l ih =>
    by_cases h : p a = true
    · simp [List.filterMap_cons, List.filter_cons, h, ih]
    · simp [List.filterMap_cons, List.filter_cons, h, ih]

/-- Appending one element to a `range'`. -/
theorem range'_concat_one (s : Nat) : ∀ m : Nat, List.range' s (m + 1) = List.range' s m ++ [s + m] := by
  intro m
  induction m generalizing s with
  | zero => rfl
  | succ m ih =>
    rw [List.range'_succ, ih (s + 1), List.range'_succ]
    simp [Nat.add_assoc, Nat.add_comm 1 m]

/-- Filtering `range n` by `k ≤ ·` yields `range' k (n - k)`. -/
theorem range_filter_ge (k : Nat) : ∀ n : Nat,
    (List.range n).filter (fun i => decide (k ≤ i)) = List.range' k (n - k) := by
  intro n
  induction n with
  | zero => simp
  | succ n ih =>
    rw [List.range_succ, List.filter_append, ih]
    by_cases h : k ≤ n
    · have hn : n + 1 - k = (n - k) + 1 := by omega
      rw [hn, range'_concat_one]
      have hk : k + (n - k) = n := by omega
      simp [h, hk]
    · have hn : n + 1 - k = 0 := by omega
      have hn' : n - k = 0 := by omega
      simp [hn, hn', h]

/-- The rows surviving `dropna` are exactly the rows from index 49 on,
carrying their 20- and 50-bar close averages. -/
theorem rowsAfterDropna_eq (xs : List ℚ) :
    rowsAfterDropna xs =
      (List.range' 49 (xs.length - 49)).map
        (fun i => (windowAvg 20 xs i, windowAvg 50 xs i)) := by
  unfold rowsAfterDropna rollingMean
  rw [List.zip_map', List.filterMap_map]
  have hfun : (joinSMA ∘ fun i => (smaCell 20 xs i, smaCell 50 xs i)) =
      (fun i => if decide (49 ≤ i) then some (windowAvg 20 xs i, windowAvg 50 xs i) else none) := by
    funext i
    unfold smaCell
    by_cases h : 49 ≤ i
    · have h19 : 19 ≤ i := by omega
      simp [h, h19, joinSMA]
    · by_cases h19 : 19 ≤ i <;> simp [h, h19, joinSMA]
  rw [hfun, filterMap_ite_eq_filter_map (fun i => decide (49 ≤ i))
        (fun i => (windowAvg 20 xs i, windowAvg 50 xs i)) (List.range xs.length),
      range_filter_ge]

/-- Number of rows remaining after the warm-up rows are dropped. -/
theorem rowsAfterDropna_length (xs : List ℚ) :
    (rowsAfterDropna xs).length = xs.length - 49 := by
  rw [rowsAfterDropna_eq]
  simp

/-- C1: with at least two rows remaining after the warm-up, the signal is
Buy exactly when SMA(20) is strictly above SMA(50) on the last row and
at-or-below it on the second-to-last row; Sell exactly for the symmetric
downward cross; Hold exactly when neither holds.  In particular a cross on
a flat segment fires exactly once, at the row where the ordering flips. -/
theorem c1_sma_cross_signal (xs : List ℚ) (h : 2 ≤ (rowsAfterDropna xs).length) :
    (check_for_signals_closes xs = "BUY" ↔
      (windowAvg 20 xs (xs.length - 1) > windowAvg 50 xs (xs.length - 1) ∧
       windowAvg 20 xs (xs.length - 2) ≤ windowAvg 50 xs (xs.length - 2))) ∧
    (check_for_signals_closes xs = "SELL" ↔
      (windowAvg 20 xs (xs.length - 1) < windowAvg 50 xs (xs.length - 1) ∧
       windowAvg 20 xs (xs.length - 2) ≥ windowAvg 50 xs (xs.length - 2))) ∧
    (check_for_signals_closes xs = "HOLD" ↔
      (¬(windowAvg 20 xs (xs.length - 1) > windowAvg 50 xs (xs.length - 1) ∧
         windowAvg 20 xs (xs.length - 2) ≤ windowAvg 50 xs (xs.length - 2)) ∧
       ¬(windowAvg 20 xs (xs.length - 1) < windowAvg 50 xs (xs.length - 1) ∧
         windowAvg 20 xs (xs.length - 2) ≥ windowAvg 50 xs (xs.length - 2)))) := by
  have hlen : (rowsAfterDropna xs).length = xs.length - 49 := rowsAfterDropna_length xs
  have hn : 51 ≤ xs.length := by omega
  have hrows := rowsAfterDropna_eq xs
  have h1 : (rowsAfterDropna xs).getD ((rowsAfterDropna xs).length - 1) (0, 0) =
      (windowAvg 20 xs (xs.length - 1), windowAvg 50 xs (xs.length - 1)) := by
    rw [hlen, hrows, List.getD_eq_getElem _ _ (by simp; omega), List.getElem_map,
      List.getElem_range']
    have heq : 49 + 1 * (xs.length - 49 - 1) = xs.length - 1 := by omega
    rw [heq]
  have h2 : (rowsAfterDropna xs).getD ((rowsAfterDropna xs).length - 2) (0, 0) =
      (windowAvg 20 xs (xs.length - 2), windowAvg 50 xs (xs.length - 2)) := by
    rw [hlen, hrows, List.getD_eq_getElem _ _ (by simp; omega), List.getElem_map,
      List.getElem_range']
    have heq : 49 + 1 * (xs.length - 49 - 2) = xs.length - 2 := by omega
    rw [heq]
  have hnotlt : ¬ ((rowsAfterDropna xs).length < 2) := by omega
  unfold check_for_signals_closes
  simp only [hrows.symm, h1, h2, if_neg hnotlt]
  have sBS : ("BUY" : String) ≠ "SELL" := by decide
  have sBH : ("BUY" : String) ≠ "HOLD" := by decide
  have sSH : ("SELL" : String) ≠ "HOLD" := by decide
  by_cases hb : windowAvg 20 xs (xs.length - 1) > windowAvg 50 xs (xs.length - 1) ∧
      windowAvg 20 xs (xs.length - 2) ≤ windowAvg 50 xs (xs.length - 2)
  · have hns : ¬ (windowAvg 20 xs (xs.length - 1) < windowAvg 50 xs (xs.length - 1) ∧
        windowAvg 20 xs (xs.length - 2) ≥ windowAvg 50 xs (xs.length - 2)) :=
      fun hs => absurd (lt_trans hs.1 hb.1) (lt_irrefl _)
    rw [if_pos hb]
    exact ⟨⟨fun _ => hb, fun _ => rfl⟩,
      ⟨fun hx => absurd hx sBS, fun hs => absurd hs hns⟩,
      ⟨fun hx => absurd hx sBH, fun hcon => absurd hb hcon.1⟩⟩
  · rw [if_neg hb]
    by_cases hs : windowAvg 20 xs (xs.length - 1) < windowAvg 50 xs (xs.length - 1) ∧
        windowAvg 20 xs (xs.length - 2) ≥ windowAvg 50 xs (xs.length - 2)
    · rw [if_pos hs]
      exact ⟨⟨fun hx => absurd hx.symm sBS, fun hbc => absurd hbc hb⟩,
        ⟨fun _ => hs, fun _ => rfl⟩,
        ⟨fun hx => absurd hx sSH, fun hcon => absurd hs hcon.2⟩⟩
    · rw [if_neg hs]
      exact ⟨⟨fun hx => absurd hx.symm sBH, fun hbc => absurd hbc hb⟩,
        ⟨fun hx => absurd hx.symm sSH, fun hsc => absurd hsc hs⟩,
        ⟨fun _ => ⟨hb, hs⟩, fun _ => rfl⟩⟩

/-- 51-bar series used as the concrete witness for C1: 50 flat closes and
one final spike, producing an upward cross on the last row. -/
def c1wSeries : List ℚ := List.replicate 50 0 ++ [100]

/-- Witness for C1 on a concrete series where an upward cross occurs. -/
theorem c1_sma_cross_signal_witness :
    2 ≤ (rowsAfterDropna c1wSeries).length ∧
    ((check_for_signals_closes c1wSeries = "BUY" ↔
      (windowAvg 20 c1wSeries (c1wSeries.length - 1) > windowAvg 50 c1wSeries (c1wSeries.length - 1) ∧
       windowAvg 20 c1wSeries (c1wSeries.length - 2) ≤ windowAvg 50 c1wSeries (c1wSeries.length - 2))) ∧
    (check_for_signals_closes c1wSeries = "SELL" ↔
      (windowAvg 20 c1wSeries (c1wSeries.length - 1) < windowAvg 50 c1wSeries (c1wSeries.length - 1) ∧
       windowAvg 20 c1wSeries (c1wSeries.length - 2) ≥ windowAvg 50 c1wSeries (c1wSeries.length - 2))) ∧
    (check_for_signals_closes c1wSeries = "HOLD" ↔
      (¬(windowAvg 20 c1wSeries (c1wSeries.length - 1) > windowAvg 50 c1wSeries (c1wSeries.length - 1) ∧
         windowAvg 20 c1wSeries (c1wSeries.length - 2) ≤ windowAvg 50 c1wSeries (c1wSeries.length - 2)) ∧
       ¬(windowAvg 20 c1wSeries (c1wSeries.length - 1) < windowAvg 50 c1wSeries (c1wSeries.length - 1) ∧
         windowAvg 20 c1wSeries (c1wSeries.length - 2) ≥ windowAvg 50 c1wSeries (c1wSeries.length - 2))))) :=
  ⟨by decide, c1_sma_cross_signal c1wSeries (by decide)⟩

/-- C5: a series leaving fewer than 2 rows after the moving-average
warm-up produces the signal Hold; the generator returns normally (it is a
total function into strings, so no error is signalled). -/
theorem c5_insufficient_data_holds (xs : List ℚ)
    (h : (rowsAfterDropna xs).length < 2) :
    check_for_signals_closes xs = "HOLD" := by
  unfold check_for_signals_closes
  simp [h]

/-- Witness for C5 at a concrete 2-bar series. -/
theorem c5_insufficient_data_holds_witness :
    (rowsAfterDropna [1, 2]).length < 2 ∧ check_for_signals_closes [1, 2] = "HOLD" :=
  ⟨by decide, c5_insufficient_data_holds [1, 2] (by decide)⟩

/-! ## Data model for accounts, instruments, positions and actions -/

/-- mt5.ORDER_TYPE_BUY / mt5.ORDER_TYPE_SELL. -/
inductive OrderType where
  | buy
  | sell
deriving DecidableEq

/-- mt5.account_info(), restricted to the field the core reads. -/
structure AccountInfo where
  balance : ℚ
deriving DecidableEq

/-- mt5.symbol_info(symbol), restricted to the fields `get_lot_size`
reads.  `volume_step_digits` is the decimal precision implied by the
textual representation of `volume_step` (the Python code derives it via
`len(str(volume_step).split('.')[-1])`; the float-to-string detour is not
modelled, the resulting digit count is taken as an input). -/
structure SymbolInfo where
  point : ℚ
  trade_tick_value : ℚ
  trade_tick_size : ℚ
  volume_min : ℚ
  volume_max : ℚ
  volume_step : ℚ
  volume_step_digits : Nat
deriving DecidableEq

/-- mt5.symbol_info_tick(symbol): the current quote. -/
structure Tick where
  bid : ℚ
  ask : ℚ
deriving DecidableEq

/-- An open position as reported by mt5.positions_get. -/
structure Position where
  ticket : Nat
  symbol : String
  ptype : OrderType
  volume : ℚ
  sl : ℚ
  tp : ℚ
  profit : ℚ
deriving DecidableEq

/-- Configuration constants of bot2.py (lines 9-20). -/
def RISK_PERCENT : ℚ := 5

/-- Stop-loss distance in points (bot2.py line 14). -/
def STOP_LOSS_PIPS : ℚ := 3000

/-- Take-profit distance in points (bot2.py line 15). -/
def TAKE_PROFIT_PIPS : ℚ := 6000

/-- Cut-loss threshold percent (bot2.py line 20). -/
def CUT_LOSS_THRESHOLD_PERCENT : ℚ := 10

/-- Magic number attached to every order (bot2.py line 12). -/
def MAGIC_NUMBER : Nat := 123456

/-! ## Position sizing (bot2.py, get_lot_size) -/

/-- Round-half-to-even to the nearest integer, as Python's `round` does. -/
def roundHalfEven (q : ℚ) : ℤ :=
  if q - ⌊q⌋ < 1 / 2 then ⌊q⌋
  else if 1 / 2 < q - ⌊q⌋ then ⌊q⌋ + 1
  else if ⌊q⌋ % 2 = 0 then ⌊q⌋ else ⌊q⌋ + 1

/-- Python's `round(q, digits)` on exact rationals. -/
def pyRound (digits : Nat) (q : ℚ) : ℚ :=
  (roundHalfEven (q * 10 ^ digits) : ℚ) / 10 ^ digits

/-- A volume is quantized to `step` when it is an integer multiple of it. -/
abbrev isMultipleOf (x step : ℚ) : Prop := (x / step).den = 1

/-- For a nonzero step, `isMultipleOf` coincides with being an integer
multiple. -/
theorem isMultipleOf_iff {x s : ℚ} (hs : s ≠ 0) :
    isMultipleOf x s ↔ ∃ k : ℤ, x = k * s := by
  constructor
  · intro h
    refine ⟨(x / s).num, ?_⟩
    have hxq : ((x / s).num : ℚ) = x / s := by
      conv_rhs => rw [← Rat.num_div_den (x / s)]
      rw [h]
      simp
    rw [hxq]
    field_simp
  · rintro ⟨k, rfl⟩
    have hxq : (k : ℚ) * s / s = (k : ℚ) := by field_simp
    show ((k : ℚ) * s / s).den = 1
    rw [hxq, Rat.den_intCast]

/-- Embedding of `get_lot_size` (bot2.py lines 83-130).  The returned pair
is (log lines, computed lot); every early-failure path returns lot `0`.
Gateway lookups are `Option`-valued inputs; the interpolated error codes of
the two lookup-failure log lines are not modelled. -/
def get_lot_size (account : Option AccountInfo) (sym : Option SymbolInfo)
    (sl_pips risk_percent : ℚ) : List String × ℚ :=
  match account with
  | none => (["Failed to get account info, error code="], 0)
  | some a =>
    match sym with
    | none => (["Failed to get symbol info, error code="], 0)
    | some si =>
      if si.trade_tick_size = 0 then
        (["Tick size is zero, cannot calculate lot size."], 0)
      else
        let lot_value_per_pip := si.trade_tick_value / si.point * si.volume_min
        if lot_value_per_pip = 0 then
          (["Lot value per pip is zero, cannot calculate lot size."], 0)
        else
          let risk_amount := a.balance * (risk_percent / 100)
          let lot_size := risk_amount / (sl_pips * lot_value_per_pip)
          let lot_size := pyRound si.volume_step_digits lot_size
          let lot_size :=
            if lot_size < si.volume_min then si.volume_min
            else if lot_size > si.volume_max then si.volume_max
            else lot_size
          (["Calculated lot size: " ++ toString lot_size], lot_size)

/-! ## Decision step of the trading loop (bot2.py lines 381-403) -/

/-- An order action the decision step hands to the executor: either a call
to `place_order` or a call to `close_position`. -/
inductive TradeAction where
  | openOrder (otype : OrderType) (lot : ℚ)
  | closeTicket (ticket : Nat)
deriving DecidableEq

/-- Embedding of the signal-dispatch block of `main_loop`: `lot` is the
value `get_lot_size` returns when the branch computes it. -/
def trading_decision (signal : String) (positions : List Position) (lot : ℚ) :
    List TradeAction :=
  if signal = "BUY" then
    match positions with
    | [] => if lot > 0 then [TradeAction.openOrder OrderType.buy lot] else []
    | p :: _ => if p.ptype = OrderType.sell then [TradeAction.closeTicket p.ticket] else []
  else if signal = "SELL" then
    match positions with
    | [] => if lot > 0 then [TradeAction.openOrder OrderType.sell lot] else []
    | p :: _ => if p.ptype = OrderType.buy then [TradeAction.closeTicket p.ticket] else []
  else []

/-! ## Position supervision (bot2.py, manage_positions) -/

/-- A request the supervisor issues for a position: an SL/TP modification
(`modify_sl_tp`) or a full close (`close_position`). -/
inductive SupAction where
  | modifySLTP (ticket : Nat) (sl tp : ℚ)
  | closeFull (ticket : Nat)
deriving DecidableEq

/-- The cut-loss block of `manage_positions` (lines 346-352): close the
position when it is losing more than the threshold percent of balance. -/
def cut_loss_check (threshold balance : ℚ) (pos : Position) : List SupAction :=
  if pos.profit < 0 ∧ |pos.profit| / balance * 100 > threshold then
    [SupAction.closeFull pos.ticket]
  else []

/-- Per-position body of the `for position in positions` loop of
`manage_positions` (lines 324-354).  When a protective level is missing
and the quote lookup fails, the Python `continue` skips the rest of the
body — including the cut-loss check. -/
def manage_one (threshold slPips tpPips point balance : ℚ) (quote : Option Tick)
    (pos : Position) : List SupAction :=
  if pos.sl = 0 ∨ pos.tp = 0 then
    match quote with
    | none => []
    | some t =>
      let prot :=
        if pos.ptype = OrderType.buy then
          SupAction.modifySLTP pos.ticket (t.ask - slPips * point) (t.ask + tpPips * point)
        else
          SupAction.modifySLTP pos.ticket (t.bid + slPips * point) (t.bid - tpPips * point)
      prot :: cut_loss_check threshold balance pos
  else cut_loss_check threshold balance pos

/-- Embedding of `manage_positions` (bot2.py lines 305-354): with no
account info or no positions nothing is issued; otherwise each position is
supervised in turn. -/
def manage_positions (threshold slPips tpPips point : ℚ) (account : Option AccountInfo)
    (quote : Option Tick) (positions : List Position) : List SupAction :=
  match account with
  | none => []
  | some a =>
    if positions.length = 0 then []
    else (positions.map (manage_one threshold slPips tpPips point a.balance quote)).flatten

/-- C3: in the decision step, a Buy signal with no open position opens a
Long exactly when the computed lot is positive; a Buy signal with an
existing Short issues only that position's close (no open in the same
cycle); a same-direction position leads to no action; Sell is the mirror
image; Hold issues nothing. -/
theorem c3_decision_step (positions : List Position) (lot : ℚ) (p : Position)
    (rest : List Position) :
    (0 < lot → trading_decision "BUY" [] lot = [TradeAction.openOrder OrderType.buy lot]) ∧
    (¬ 0 < lot → trading_decision "BUY" [] lot = []) ∧
    (p.ptype = OrderType.sell →
      trading_decision "BUY" (p :: rest) lot = [TradeAction.closeTicket p.ticket]) ∧
    (p.ptype = OrderType.buy → trading_decision "BUY" (p :: rest) lot = []) ∧
    (0 < lot → trading_decision "SELL" [] lot = [TradeAction.openOrder OrderType.sell lot]) ∧
    (¬ 0 < lot → trading_decision "SELL" [] lot = []) ∧
    (p.ptype = OrderType.buy →
      trading_decision "SELL" (p :: rest) lot = [TradeAction.closeTicket p.ticket]) ∧
    (p.ptype = OrderType.sell → trading_decision "SELL" (p :: rest) lot = []) ∧
    (trading_decision "HOLD" positions lot = []) := by
  refine ⟨fun h => ?_, fun h => ?_, fun h => ?_, fun h => ?_, fun h => ?_, fun h => ?_,
    fun h => ?_, fun h => ?_, rfl⟩ <;> simp_all [trading_decision]

/-- Short position used in concrete decision-step witnesses. -/
def c3wShort : Position :=
  { ticket := 9, symbol := "XAUUSDm", ptype := OrderType.sell, volume := 1 / 100,
    sl := 1900, tp := 1700, profit := -5 }

/-- Witness for C3 at concrete inputs: open on empty book, close-only on
an opposing Short, nothing on Hold. -/
theorem c3_decision_step_witness :
    trading_decision "BUY" [] 1 = [TradeAction.openOrder OrderType.buy 1] ∧
    trading_decision "BUY" [c3wShort] 1 = [TradeAction.closeTicket 9] ∧
    trading_decision "HOLD" [c3wShort] 1 = [] :=
  ⟨(c3_decision_step [c3wShort] 1 c3wShort []).1 (by norm_num),
   (c3_decision_step [c3wShort] 1 c3wShort []).2.2.1 (by decide),
   (c3_decision_step [c3wShort] 1 c3wShort []).2.2.2.2.2.2.2.2⟩

/-- C6: the protective-level backfill is idempotent.  A supervisor pass
issues no SL/TP modification for a position whose stop loss and take
profit are both non-zero, and any modification it does issue is for a
position with at least one zero protective level. -/
theorem c6_backfill_idempotent (threshold slPips tpPips point balance : ℚ)
    (quote : Option Tick) (pos : Position) :
    (pos.sl ≠ 0 → pos.tp ≠ 0 → ∀ tk s t,
      SupAction.modifySLTP tk s t ∉
        manage_positions threshold slPips tpPips point (some ⟨balance⟩) quote [pos]) ∧
    (∀ tk s t,
      SupAction.modifySLTP tk s t ∈
        manage_positions threshold slPips tpPips point (some ⟨balance⟩) quote [pos] →
      pos.sl = 0 ∨ pos.tp = 0) := by
  have hmp : manage_positions threshold slPips tpPips point (some ⟨balance⟩) quote [pos] =
      manage_one threshold slPips tpPips point balance quote pos := by
    simp [manage_positions]
  constructor
  · intro hsl htp tk s t
    have hcond : ¬ (pos.sl = 0 ∨ pos.tp = 0) := by tauto
    rw [hmp]
    unfold manage_one
    rw [if_neg hcond]
    unfold cut_loss_check
    split <;> simp
  · intro tk s t hmem
    by_contra hcon
    have hcond : ¬ (pos.sl = 0 ∨ pos.tp = 0) := hcon
    rw [hmp] at hmem
    unfold manage_one at hmem
    rw [if_neg hcond] at hmem
    unfold cut_loss_check at hmem
    split at hmem <;> simp at hmem

/-- Position with both protective levels set, used in the C6 witness. -/
def c6wPos : Position :=
  { ticket := 5, symbol := "XAUUSDm", ptype := OrderType.buy, volume := 1 / 100,
    sl := 1800, tp := 2000, profit := 14 }

/-- Witness for C6: a fully protected position receives no modification
call from a supervisor pass. -/
theorem c6_backfill_idempotent_witness :
    SupAction.modifySLTP 5 1801 2001 ∉
      manage_positions 10 3000 6000 (1 / 100) (some ⟨1000⟩) (some ⟨1900, 1901⟩) [c6wPos] :=
  (c6_backfill_idempotent 10 3000 6000 (1 / 100) 1000 (some ⟨1900, 1901⟩) c6wPos).1
    (by decide) (by decide) 5 1801 2001

/-- Losing position with no protective levels, used to exhibit the C2
counterexample: the quote lookup fails, the backfill `continue` skips the
cut-loss check, and no close is issued despite a 25% loss. -/
def c2xPos : Position :=
  { ticket := 7, symbol := "XAUUSDm", ptype := OrderType.buy, volume := 1 / 100,
    sl := 0, tp := 0, profit := -250 }

/-- Counterexample to C2 as stated: profit −250 on balance 1000 is a 25%
loss, above the 20% threshold, yet with `sl = tp = 0` and an unavailable
quote the supervisor issues no close for the position. -/
theorem c2_counterexample :
    c2xPos.profit < 0 ∧ |c2xPos.profit| / 1000 * 100 > 20 ∧
    SupAction.closeFull c2xPos.ticket ∉
      manage_positions 20 3000 6000 (1 / 100) (some ⟨1000⟩) none [c2xPos] := by
  refine ⟨by with_unfolding_all decide, by with_unfolding_all decide, ?_⟩
  simp [manage_positions, manage_one, c2xPos]

/-- C2 (amended): provided the position is not skipped by the backfill
path — i.e. both protective levels are non-zero, or the quote is
available — the supervisor issues a full close exactly when the profit is
negative and the loss percent of balance strictly exceeds the threshold. -/
theorem c2_cut_loss (threshold slPips tpPips point balance : ℚ) (quote : Option Tick)
    (pos : Position) (hb : 0 < balance)
    (hready : (pos.sl ≠ 0 ∧ pos.tp ≠ 0) ∨ quote ≠ none) :
    SupAction.closeFull pos.ticket ∈
        manage_positions threshold slPips tpPips point (some ⟨balance⟩) quote [pos] ↔
      pos.profit < 0 ∧ |pos.profit| / balance * 100 > threshold := by
  have hmp : manage_positions threshold slPips tpPips point (some ⟨balance⟩) quote [pos] =
      manage_one threshold slPips tpPips point balance quote pos := by
    simp [manage_positions]
  have hclc : SupAction.closeFull pos.ticket ∈ cut_loss_check threshold balance pos ↔
      (pos.profit < 0 ∧ |pos.profit| / balance * 100 > threshold) := by
    unfold cut_loss_check
    split
    · next hcond => exact ⟨fun _ => hcond, fun _ => List.mem_singleton.mpr rfl⟩
    · next hcond => exact ⟨fun hx => absurd hx (List.not_mem_nil _), fun hx => absurd hx hcond⟩
  rw [hmp]
  unfold manage_one
  by_cases hzero : pos.sl = 0 ∨ pos.tp = 0
  · rw [if_pos hzero]
    obtain ⟨t, rfl⟩ : ∃ t, quote = some t := by
      rcases hready with ⟨h1, h2⟩ | hq
      · rcases hzero with h | h
        · exact absurd h h1
        · exact absurd h h2
      · cases quote with
        | none => exact absurd rfl hq
        | some t => exact ⟨t, rfl⟩
    simp only [List.mem_cons]
    constructor
    · intro hx
      rcases hx with hx | hx
      · split at hx <;> simp at hx
      · exact hclc.mp hx
    · intro hc
      exact Or.inr (hclc.mpr hc)
  · rw [if_neg hzero]
    exact hclc

/-- Losing and mildly-losing protected positions for the C2 witness. -/
def c2wPosBig : Position :=
  { ticket := 11, symbol := "XAUUSDm", ptype := OrderType.buy, volume := 1 / 100,
    sl := 1800, tp := 2000, profit := -250 }

/-- Position losing 15% of balance, below the 20% threshold. -/
def c2wPosSmall : Position :=
  { ticket := 12, symbol := "XAUUSDm", ptype := OrderType.buy, volume := 1 / 100,
    sl := 1800, tp := 2000, profit := -150 }

/-- Witness for C2 (amended), matching the spec's worked examples: with
threshold 20% and balance 1000, a −250 loss (25%) is closed and a −150
loss (15%) is not. -/
theorem c2_cut_loss_witness :
    SupAction.closeFull c2wPosBig.ticket ∈
      manage_positions 20 3000 6000 (1 / 100) (some ⟨1000⟩) none [c2wPosBig] ∧
    SupAction.closeFull c2wPosSmall.ticket ∉
      manage_positions 20 3000 6000 (1 / 100) (some ⟨1000⟩) none [c2wPosSmall] :=
  ⟨(c2_cut_loss 20 3000 6000 (1 / 100) 1000 none c2wPosBig (by norm_num)
      (Or.inl ⟨by decide, by decide⟩)).mpr
      ⟨by with_unfolding_all decide, by with_unfolding_all decide⟩,
   fun hmem =>
    absurd ((c2_cut_loss 20 3000 6000 (1 / 100) 1000 none c2wPosSmall (by norm_num)
      (Or.inl ⟨by decide, by decide⟩)).mp hmem).2
      (by with_unfolding_all decide)⟩

/-- C8: the sizer returns 0 with the tick-size log line when the tick size
is zero, returns 0 with the pip-value log line when the derived
lot-value-per-pip is zero, and the two log lines are distinct; in both
cases the returned log shows that no lot size was computed.  (The
`si.point ≠ 0` guard scopes the second case to inputs where the Python
division `tick_value / point` does not itself raise.) -/
theorem c8_sizer_failure_logs (a : AccountInfo) (si : SymbolInfo) (sl rp : ℚ) :
    (si.trade_tick_size = 0 →
      get_lot_size (some a) (some si) sl rp =
        (["Tick size is zero, cannot calculate lot size."], 0)) ∧
    (si.point ≠ 0 → si.trade_tick_size ≠ 0 →
      si.trade_tick_value / si.point * si.volume_min = 0 →
      get_lot_size (some a) (some si) sl rp =
        (["Lot value per pip is zero, cannot calculate lot size."], 0)) ∧
    ("Tick size is zero, cannot calculate lot size." ≠
      "Lot value per pip is zero, cannot calculate lot size.") := by
  refine ⟨fun h0 => ?_, fun hp h0 hlv => ?_, by decide⟩
  · simp [get_lot_size, h0]
  · simp [get_lot_size, h0, hlv]

/-- Instrument with zero tick size for the C8 witness. -/
def c8wSymA : SymbolInfo :=
  { point := 1, trade_tick_value := 1, trade_tick_size := 0, volume_min := 1 / 100,
    volume_max := 100, volume_step := 1 / 100, volume_step_digits := 2 }

/-- Instrument whose lot value per pip derives to zero, for the C8
witness. -/
def c8wSymB : SymbolInfo :=
  { point := 1, trade_tick_value := 0, trade_tick_size := 1, volume_min := 1 / 100,
    volume_max := 100, volume_step := 1 / 100, volume_step_digits := 2 }

/-- Witness for C8 at the two concrete failing instruments. -/
theorem c8_sizer_failure_logs_witness :
    get_lot_size (some ⟨1000⟩) (some c8wSymA) 3000 5 =
      (["Tick size is zero, cannot calculate lot size."], 0) ∧
    get_lot_size (some ⟨1000⟩) (some c8wSymB) 3000 5 =
      (["Lot value per pip is zero, cannot calculate lot size."], 0) :=
  ⟨(c8_sizer_failure_logs ⟨1000⟩ c8wSymA 3000 5).1 (by decide),
   (c8_sizer_failure_logs ⟨1000⟩ c8wSymB 3000 5).2.1 (by decide) (by decide)
     (by with_unfolding_all decide)⟩

/-- Clamp of `x` to the interval `[lo, hi]` (meaningful when `lo ≤ hi`). -/
def clampQ (lo hi x : ℚ) : ℚ := max lo (min hi x)

/-- Instrument whose volume step (0.05) is coarser than the rounding
grid its textual form implies (2 decimals), used to refute C4 as
stated. -/
def c4xSym : SymbolInfo :=
  { point := 1, trade_tick_value := 1, trade_tick_size := 1, volume_min := 1 / 100,
    volume_max := 100, volume_step := 1 / 20, volume_step_digits := 2 }

/-- Counterexample to C4 as stated: with volumeStep 0.05 the sizer can
return 0.03 — a non-zero in-range volume that is not an integer multiple
of volumeStep, because rounding quantizes to the 2-decimal grid implied by
the text of volumeStep, not to volumeStep itself. -/
theorem c4_counterexample :
    (get_lot_size (some ⟨1⟩) (some c4xSym) 100 3).2 = 3 / 100 ∧
    (3 / 100 : ℚ) ≠ 0 ∧
    c4xSym.volume_min ≤ 3 / 100 ∧ (3 / 100 : ℚ) ≤ c4xSym.volume_max ∧
    ¬ isMultipleOf (3 / 100 : ℚ) c4xSym.volume_step :=
  ⟨by with_unfolding_all decide, by norm_num, by with_unfolding_all decide,
   by with_unfolding_all decide, by with_unfolding_all decide⟩

/-- C4 (amended): every non-zero volume the sizer returns lies in
[volumeMin, volumeMax] and is volumeMin, volumeMax, or an integer multiple
of the rounding grid 10^(−d) implied by volumeStep's decimal precision d
(not necessarily of volumeStep itself); on the successful path the raw
value riskAmount / (slDistance · lotValuePerPip) is first rounded to d
decimals and then clamped into [volumeMin, volumeMax].  The `point`/`sl`
non-zero guards scope the statement to inputs where the Python divisions
do not raise. -/
theorem c4_lot_in_range_and_quantized (a : AccountInfo) (si : SymbolInfo) (sl rp : ℚ)
    (hpt : si.point ≠ 0) (hsl : sl ≠ 0) (hminmax : si.volume_min ≤ si.volume_max) :
    ((get_lot_size (some a) (some si) sl rp).2 ≠ 0 →
      si.volume_min ≤ (get_lot_size (some a) (some si) sl rp).2 ∧
      (get_lot_size (some a) (some si) sl rp).2 ≤ si.volume_max ∧
      ((get_lot_size (some a) (some si) sl rp).2 = si.volume_min ∨
       (get_lot_size (some a) (some si) sl rp).2 = si.volume_max ∨
       isMultipleOf (get_lot_size (some a) (some si) sl rp).2
         (1 / 10 ^ si.volume_step_digits))) ∧
    (si.trade_tick_size ≠ 0 → si.trade_tick_value / si.point * si.volume_min ≠ 0 →
      (get_lot_size (some a) (some si) sl rp).2 =
        clampQ si.volume_min si.volume_max
          (pyRound si.volume_step_digits
            (a.balance * (rp / 100) /
              (sl * (si.trade_tick_value / si.point * si.volume_min))))) := by
  by_cases hts : si.trade_tick_size = 0
  · refine ⟨fun h0 => absurd ?_ h0, fun hts' _ => absurd hts hts'⟩
    simp [get_lot_size, hts]
  · by_cases hlv : si.trade_tick_value / si.point * si.volume_min = 0
    · refine ⟨fun h0 => absurd ?_ h0, fun _ hlv' => absurd hlv hlv'⟩
      simp [get_lot_size, hts, hlv]
    · set r := pyRound si.volume_step_digits
        (a.balance * (rp / 100) /
          (sl * (si.trade_tick_value / si.point * si.volume_min))) with hr
      have hmul : isMultipleOf r (1 / 10 ^ si.volume_step_digits) := by
        have hne : (1 / 10 ^ si.volume_step_digits : ℚ) ≠ 0 := by positivity
        refine (isMultipleOf_iff hne).mpr
          ⟨roundHalfEven
            (a.balance * (rp / 100) /
              (sl * (si.trade_tick_value / si.point * si.volume_min)) *
              10 ^ si.volume_step_digits), ?_⟩
        rw [hr]
        unfold pyRound
        rw [one_div, div_eq_mul_inv]
      have hlot : (get_lot_size (some a) (some si) sl rp).2 =
          (if r < si.volume_min then si.volume_min
           else if r > si.volume_max then si.volume_max else r) := by
        rw [hr]
        simp [get_lot_size, hts, hlv]
      have hclamp : (if r < si.volume_min then si.volume_min
          else if r > si.volume_max then si.volume_max else r) =
          clampQ si.volume_min si.volume_max r := by
        unfold clampQ
        by_cases h1 : r < si.volume_min
        · rw [if_pos h1, min_eq_right (le_trans (le_of_lt h1) hminmax),
            max_eq_left (le_of_lt h1)]
        · by_cases h2 : r > si.volume_max
          · rw [if_neg h1, if_pos h2, min_eq_left (le_of_lt h2), max_eq_right hminmax]
          · rw [if_neg h1, if_neg h2, min_eq_right (not_lt.mp h2),
              max_eq_right (not_lt.mp h1)]
      refine ⟨fun _ => ?_, fun _ _ => by rw [hlot, hclamp]⟩
      rw [hlot]
      by_cases h1 : r < si.volume_min
      · rw [if_pos h1]
        exact ⟨le_refl _, hminmax, Or.inl rfl⟩
      · by_cases h2 : r > si.volume_max
        · rw [if_neg h1, if_pos h2]
          exact ⟨hminmax, le_refl _, Or.inr (Or.inl rfl)⟩
        · rw [if_neg h1, if_neg h2]
          exact ⟨not_lt.mp h1, not_lt.mp h2, Or.inr (Or.inr hmul)⟩

/-- Regular gold-like instrument for the C4 witness. -/
def c4wSym : SymbolInfo :=
  { point := 1 / 100, trade_tick_value := 1, trade_tick_size := 1 / 100,
    volume_min := 1 / 100, volume_max := 100, volume_step := 1 / 100,
    volume_step_digits := 2 }

/-- Witness for C4 (amended) on a concrete account and instrument. -/
theorem c4_lot_in_range_and_quantized_witness :
    c4wSym.point ≠ 0 ∧ (3000 : ℚ) ≠ 0 ∧ c4wSym.volume_min ≤ c4wSym.volume_max ∧
    (((get_lot_size (some ⟨10000⟩) (some c4wSym) 3000 5).2 ≠ 0 →
      c4wSym.volume_min ≤ (get_lot_size (some ⟨10000⟩) (some c4wSym) 3000 5).2 ∧
      (get_lot_size (some ⟨10000⟩) (some c4wSym) 3000 5).2 ≤ c4wSym.volume_max ∧
      ((get_lot_size (some ⟨10000⟩) (some c4wSym) 3000 5).2 = c4wSym.volume_min ∨
       (get_lot_size (some ⟨10000⟩) (some c4wSym) 3000 5).2 = c4wSym.volume_max ∨
       isMultipleOf (get_lot_size (some ⟨10000⟩) (some c4wSym) 3000 5).2
         (1 / 10 ^ c4wSym.volume_step_digits))) ∧
    (c4wSym.trade_tick_size ≠ 0 →
      c4wSym.trade_tick_value / c4wSym.point * c4wSym.volume_min ≠ 0 →
      (get_lot_size (some ⟨10000⟩) (some c4wSym) 3000 5).2 =
        clampQ c4wSym.volume_min c4wSym.volume_max
          (pyRound c4wSym.volume_step_digits
            ((10000 : ℚ) * (5 / 100) /
              (3000 * (c4wSym.trade_tick_value / c4wSym.point * c4wSym.volume_min)))))) :=
  ⟨by with_unfolding_all decide, by norm_num, by with_unfolding_all decide,
   c4_lot_in_range_and_quantized ⟨10000⟩ c4wSym 3000 5 (by with_unfolding_all decide)
     (by norm_num) (by with_unfolding_all decide)⟩

/-! ## Closing a position (bot2.py, close_position) -/

/-- A Python exception value (an instance of `Exception`, which is what
the loop's `except Exception` clause catches). -/
inductive PyExc where
  | exc (msg : String)
deriving DecidableEq

/-- mt5.TRADE_ACTION_DEAL. -/
def TRADE_ACTION_DEAL : Nat := 1

/-- The order request `close_position` submits via `mt5.order_send`. -/
structure OrderRequest where
  action : Nat
  position : Nat
  symbol : String
  volume : ℚ
  otype : OrderType
  deviation : Nat
  magic : Nat
deriving DecidableEq

/-- `mt5.positions_get(ticket=...)`: the open positions carrying the given
ticket. -/
def positions_get_ticket (allPos : List Position) (ticket : Nat) : List Position :=
  allPos.filter fun p => p.ticket = ticket

/-- Embedding of `close_position` (bot2.py lines 158-186): the position
query result is indexed at `[0]` with no emptiness check, so an empty
result raises IndexError; otherwise the close request (side reversed,
deviation 20, magic number attached) is submitted. -/
def close_position (allPos : List Position) (position_ticket : Nat) (volume : Option ℚ) :
    Except PyExc OrderRequest :=
  match positions_get_ticket allPos position_ticket with
  | [] => Except.error (PyExc.exc "IndexError: tuple index out of range")
  | position :: _ =>
    Except.ok
      { action := TRADE_ACTION_DEAL, position := position.ticket,
        symbol := position.symbol, volume := volume.getD position.volume,
        otype := if position.ptype = OrderType.buy then OrderType.sell else OrderType.buy,
        deviation := 20, magic := MAGIC_NUMBER }

/-- The close requests a `close_position` call hands to the gateway: none
when it raised instead. -/
def submittedRequests : Except PyExc OrderRequest → List OrderRequest
  | Except.ok r => [r]
  | Except.error _ => []

/-- C10: when the ticket resolves to no open position, `close_position`
raises (IndexError from indexing the empty query result) and submits no
close request to the gateway. -/
theorem c10_close_missing_ticket_raises (allPos : List Position) (ticket : Nat)
    (volume : Option ℚ) (h : positions_get_ticket allPos ticket = []) :
    close_position allPos ticket volume =
      Except.error (PyExc.exc "IndexError: tuple index out of range") ∧
    submittedRequests (close_position allPos ticket volume) = [] := by
  have hcp : close_position allPos ticket volume =
      Except.error (PyExc.exc "IndexError: tuple index out of range") := by
    unfold close_position
    rw [h]
  exact ⟨hcp, by rw [hcp]; rfl⟩

/-- Witness for C10: closing ticket 1 with no open positions raises. -/
theorem c10_close_missing_ticket_raises_witness :
    positions_get_ticket [] 1 = [] ∧
    (close_position [] 1 none =
      Except.error (PyExc.exc "IndexError: tuple index out of range") ∧
     submittedRequests (close_position [] 1 none) = []) :=
  ⟨rfl, c10_close_missing_ticket_raises [] 1 none rfl⟩

/-! ## The trading loop (bot2.py, main_loop) -/

/-- What one pass of the `while True` body yields when it does not raise:
the executor calls of the decision step, the supervisor calls, and the
chosen sleep (300s normal cadence, 60s backoff after a failed data
fetch). -/
structure CycleOut where
  tradeActs : List TradeAction
  supActs : List SupAction
  sleepSecs : Nat
deriving DecidableEq

/-- Observable fate of one loop iteration: continue (with the error log
lines the `except` clause wrote and the sleep applied) or terminate. -/
inductive LoopStep where
  | continueWith (errorLogs : List String) (sleepSecs : Nat)
  | terminated
deriving DecidableEq

/-- Embedding of the `try`/`except Exception` wrapper of the loop body
(bot2.py lines 361-419): a normal body outcome continues with its sleep; a
raised exception is logged as "An error occurred: ..." and is followed by
the 60-second error backoff, and the loop continues. -/
def main_loop_iteration (body : Except PyExc CycleOut) : LoopStep :=
  match body with
  | Except.ok out => LoopStep.continueWith [] out.sleepSecs
  | Except.error (PyExc.exc m) => LoopStep.continueWith ["An error occurred: " ++ m] 60

/-- Embedding of `main_loop`'s entry (lines 356-361): only a failed
`connect_to_mt5` terminates, before the loop is entered. -/
def main_loop (connected : Bool) (body : Except PyExc CycleOut) : LoopStep :=
  if connected then main_loop_iteration body else LoopStep.terminated

/-- Gateway state visible to one cycle. -/
structure Env where
  bars : Option (List ℚ)
  account : Option AccountInfo
  sym : Option SymbolInfo
  positions : List Position
  quote : Option Tick

/-- Execution of the decision step's actions; a close whose ticket no
longer resolves propagates its IndexError. -/
def execute_actions (positions : List Position) : List TradeAction → Except PyExc Unit
  | [] => Except.ok ()
  | TradeAction.openOrder _ _ :: rest => execute_actions positions rest
  | TradeAction.closeTicket t :: rest =>
    match close_position positions t none with
    | Except.error e => Except.error e
    | Except.ok _ => execute_actions positions rest

/-- One pass of the loop body over a gateway state: fetch failure short-
circuits to the 60s retry sleep; otherwise signal, decision, execution and
supervision run in order and any raised exception propagates. -/
def cycle_body (env : Env) : Except PyExc CycleOut :=
  match env.bars with
  | none => Except.ok { tradeActs := [], supActs := [], sleepSecs := 60 }
  | some closes =>
    let signal := check_for_signals_closes closes
    let lot := (get_lot_size env.account env.sym STOP_LOSS_PIPS RISK_PERCENT).2
    let acts := trading_decision signal env.positions lot
    match execute_actions env.positions acts with
    | Except.error e => Except.error e
    | Except.ok _ =>
      Except.ok
        { tradeActs := acts,
          supActs := manage_positions CUT_LOSS_THRESHOLD_PERCENT STOP_LOSS_PIPS
            TAKE_PROFIT_PIPS ((env.sym.map fun si => si.point).getD 0)
            env.account env.quote env.positions,
          sleepSecs := 300 }

/-- Any loop-body outcome leads to a continuing step, never termination. -/
theorem loop_iteration_continues (body : Except PyExc CycleOut) :
    main_loop_iteration body ≠ LoopStep.terminated := by
  cases body with
  | ok out => simp [main_loop_iteration]
  | error e => cases e with | exc m => simp [main_loop_iteration]

/-- C7: every exception a loop-body pass raises is absorbed by the
outermost `except` clause — it is logged as "An error occurred: ..." and
followed by the 60-second error backoff — and the iteration continues; no
body outcome, in particular no outcome of the embedded cycle over any
gateway state, terminates the loop. -/
theorem c7_loop_failure_containment :
    (∀ body : Except PyExc CycleOut, main_loop_iteration body ≠ LoopStep.terminated) ∧
    (∀ m : String, main_loop_iteration (Except.error (PyExc.exc m)) =
      LoopStep.continueWith ["An error occurred: " ++ m] 60) ∧
    (∀ env : Env, main_loop true (cycle_body env) ≠ LoopStep.terminated) :=
  ⟨loop_iteration_continues, fun _ => rfl,
   fun env => by simpa [main_loop] using loop_iteration_continues (cycle_body env)⟩

/-! ## Frame-level signal generation (C9)

`check_for_signals` receives the pandas DataFrame itself and mutates it:
`data['SMA_short'] = ...` and `data['SMA_long'] = ...` add (or overwrite)
columns and `data.dropna(inplace=True)` removes the warm-up rows from the
caller's frame.  A frame is a column-name list plus rows of optional
rationals: a `none` cell models NaN. -/

/-- A pandas DataFrame: named columns and rows of cells, where a `none`
cell models NaN. -/
structure Frame where
  cols : List String
  rows : List (List (Option ℚ))
deriving DecidableEq

/-- Column access `df[c]` (cells of a missing column read as NaN). -/
def getCol (df : Frame) (c : String) : List (Option ℚ) :=
  df.rows.map fun r => r.getD (df.cols.indexOf c) none

/-- `df[c].rolling(window=w).mean()` over possibly-NaN cells: a full
window of non-NaN values yields its mean, anything else yields NaN. -/
def rollingMeanOpt (w : Nat) (xs : List (Option ℚ)) : List (Option ℚ) :=
  (List.range xs.length).map fun i =>
    if w ≤ i + 1 ∧ (List.range w).all (fun k => (xs.getD (i + 1 - w + k) none).isSome)
    then some ((((List.range w).map fun k => (xs.getD (i + 1 - w + k) none).getD 0).sum) / w)
    else none

/-- Column assignment `df[c] = vals`: overwrite an existing column or
append a new one. -/
def setCol (df : Frame) (c : String) (vals : List (Option ℚ)) : Frame :=
  if c ∈ df.cols then
    { cols := df.cols,
      rows := List.zipWith (fun r v => r.set (df.cols.indexOf c) v) df.rows vals }
  else
    { cols := df.cols ++ [c],
      rows := List.zipWith (fun r v => r ++ [v]) df.rows vals }

/-- `df.dropna()`: keep only the rows with no NaN cell. -/
def dropna (df : Frame) : Frame :=
  { cols := df.cols, rows := df.rows.filter fun r => r.all fun cell => cell.isSome }

/-- Embedding of `check_for_signals` (bot2.py lines 234-259) at the frame
level: the first component is the state of the caller's frame after the
call (the in-place mutation), the second is the returned signal.  Cell
reads use `.getD 0`; after `dropna` no read cell is NaN. -/
def check_for_signals (df : Frame) : Frame × String :=
  let df1 := setCol df "SMA_short" (rollingMeanOpt 20 (getCol df "close"))
  let df2 := setCol df1 "SMA_long" (rollingMeanOpt 50 (getCol df1 "close"))
  let df3 := dropna df2
  if df3.rows.length < 2 then (df3, "HOLD")
  else
    let last_row := df3.rows.getD (df3.rows.length - 1) []
    let prev_row := df3.rows.getD (df3.rows.length - 2) []
    let lastS := (last_row.getD (df3.cols.indexOf "SMA_short") none).getD 0
    let lastL := (last_row.getD (df3.cols.indexOf "SMA_long") none).getD 0
    let prevS := (prev_row.getD (df3.cols.indexOf "SMA_short") none).getD 0
    let prevL := (prev_row.getD (df3.cols.indexOf "SMA_long") none).getD 0
    if lastS > lastL ∧ prevS ≤ prevL then (df3, "BUY")
    else if lastS < lastL ∧ prevS ≥ prevL then (df3, "SELL")
    else (df3, "HOLD")

/-- The close column of a frame, as plain rationals. -/
def closesOf (df : Frame) : List ℚ :=
  df.rows.map fun r => (r.getD (df.cols.indexOf "close") none).getD 0

/-! ### Helper lemmas for relating the frame pipeline to the close-level
signal -/

/-- Indexing a map over `range`. -/
theorem getD_range_map {α : Type} (g : Nat → α) (n i : Nat) (d : α) (h : i < n) :
    ((List.range n).map g).getD i d = g i := by
  rw [List.getD_eq_getElem _ _ (by simpa using h), List.getElem_map, List.getElem_range]

/-- A list is the map of its `getD` over `range`. -/
theorem map_getD_range {α : Type} (d : α) :
    ∀ l : List α, (List.range l.length).map (fun i => l.getD i d) = l := by
  intro l
  induction l with
  | nil => rfl
  | cons a l ih =>
    rw [List.length_cons, List.range_succ_eq_map, List.map_cons, List.map_map]
    simp only [Function.comp_def, Nat.succ_eq_add_one, List.getD_cons_zero,
      List.getD_cons_succ]
    rw [ih]

/-- `zipWith` as a map over the index range. -/
theorem zipWith_eq_range_map {α β γ : Type} (f : α → β → γ) (da : α) (db : β) :
    ∀ (as : List α) (bs : List β),
      List.zipWith f as bs =
        (List.range (min as.length bs.length)).map
          (fun i => f (as.getD i da) (bs.getD i db)) := by
  intro as
  induction as with
  | nil => intro bs; simp
  | cons a as ih =>
    intro bs
    cases bs with
    | nil => simp
    | cons b bs =>
      rw [List.zipWith_cons_cons, ih bs, List.length_cons, List.length_cons,
        Nat.succ_min_succ, List.range_succ_eq_map, List.map_cons, List.map_map]
      simp only [Function.comp_def, Nat.succ_eq_add_one, List.getD_cons_zero,
        List.getD_cons_succ]

/-- Rolling a column of plain values agrees with the close-level rolling
mean. -/
theorem rollingMeanOpt_map_some (w : Nat) (xs : List ℚ) :
    rollingMeanOpt w (xs.map some) = rollingMean w xs := by
  unfold rollingMeanOpt rollingMean smaCell windowAvg
  rw [List.length_map]
  refine List.map_congr_left ?_
  intro i hi
  rw [List.mem_range] at hi
  by_cases hw : w ≤ i + 1
  · have hall : ((List.range w).all
        (fun k => ((xs.map some).getD (i + 1 - w + k) none).isSome)) = true := by
      rw [List.all_eq_true]
      intro k hk
      rw [List.mem_range] at hk
      have hlt : i + 1 - w + k < xs.length := by omega
      rw [List.getD_eq_getElem _ _ (by simpa using hlt), List.getElem_map]
      rfl
    rw [if_pos ⟨hw, hall⟩, if_pos hw]
    congr 2
    refine congrArg List.sum (List.map_congr_left ?_)
    intro k hk
    rw [List.mem_range] at hk
    have hlt : i + 1 - w + k < xs.length := by omega
    rw [List.getD_eq_getElem _ _ (by simpa using hlt), List.getElem_map,
      List.getD_eq_getElem _ _ hlt]
    rfl
  · rw [if_neg hw, if_neg]
    intro hcon
    exact hw hcon.1

/-- With a present close column, full-width rows and no NaN cell, the
close column reads back as the plain close values. -/
theorem getCol_close_eq (df : Frame) (hc : "close" ∈ df.cols)
    (hr : ∀ r ∈ df.rows, r.length = df.cols.length)
    (ha : ∀ r ∈ df.rows, ∀ cell ∈ r, cell.isSome = true) :
    getCol df "close" = (closesOf df).map some := by
  unfold getCol closesOf
  rw [List.map_map]
  refine List.map_congr_left ?_
  intro r hrm
  simp only [Function.comp]
  have hidx : df.cols.indexOf "close" < r.length := by
    rw [hr r hrm]
    exact List.indexOf_lt_length.mpr hc
  rw [List.getD_eq_getElem _ _ hidx]
  have hsome := ha r hrm _ (List.getElem_mem hidx)
  cases hcell : r[df.cols.indexOf "close"] with
  | none => rw [hcell] at hsome; simp at hsome
  | some q => rfl

/-- `indexOf` ignores an appended tail when the key is present. -/
theorem indexOf_append_of_mem {α : Type} [BEq α] [LawfulBEq α] {a : α} {l : List α}
    (l2 : List α) (h : a ∈ l) : (l ++ l2).indexOf a = l.indexOf a := by
  induction l with
  | nil => exact absurd h (List.not_mem_nil a)
  | cons b l ih =>
    rw [List.cons_append]
    by_cases hba : (b == a) = true
    · simp [List.indexOf_cons, hba]
    · have hmem : a ∈ l := by
        rcases List.mem_cons.mp h with rfl | hm
        · exact absurd (beq_self_eq_true a) (by simpa using hba)
        · exact hm
      simp [List.indexOf_cons, hba, ih hmem]

/-- `indexOf` of a key missing from the prefix skips the whole prefix. -/
theorem indexOf_append_of_not_mem {α : Type} [BEq α] [LawfulBEq α] {a : α} {l : List α}
    (l2 : List α) (h : a ∉ l) : (l ++ l2).indexOf a = l.length + l2.indexOf a := by
  induction l with
  | nil => simp
  | cons b l ih =>
    have hba : (b == a) = false := by
      rw [beq_eq_false_iff_ne]
      intro he
      exact h (he ▸ List.mem_cons_self b l)
    have hmem : a ∉ l := fun hm => h (List.mem_cons_of_mem _ hm)
    rw [List.cons_append]
    simp only [List.indexOf_cons, hba, cond_false, ih hmem, List.length_cons]
    omega

/-- The close column has one value per row. -/
theorem closesOf_length (df : Frame) : (closesOf df).length = df.rows.length := by
  unfold closesOf
  rw [List.length_map]

/-- Row `i` of the caller's frame after both SMA columns are attached. -/
def extRow (df : Frame) (i : Nat) : List (Option ℚ) :=
  df.rows.getD i [] ++ [smaCell 20 (closesOf df) i, smaCell 50 (closesOf df) i]

/-- The caller's frame after `data['SMA_short'] = ...`. -/
def withSmaShort (df : Frame) : Frame :=
  { cols := df.cols ++ ["SMA_short"],
    rows := (List.range df.rows.length).map
      (fun i => df.rows.getD i [] ++ [smaCell 20 (closesOf df) i]) }

/-- The caller's frame after both SMA columns are assigned. -/
def withBothSma (df : Frame) : Frame :=
  { cols := df.cols ++ ["SMA_short", "SMA_long"],
    rows := (List.range df.rows.length).map (extRow df) }

/-- The caller's frame after the in-place `dropna`: the SMA columns are
appended and exactly the warm-up rows (no full 50-bar window) are gone. -/
def framePostSignal (df : Frame) : Frame :=
  { cols := df.cols ++ ["SMA_short", "SMA_long"],
    rows := (List.range' 49 (df.rows.length - 49)).map (extRow df) }

/-- Shape of the frame after `data['SMA_short'] = ...`. -/
theorem setCol_sma_short_eq (df : Frame) (hc : "close" ∈ df.cols)
    (hr : ∀ r ∈ df.rows, r.length = df.cols.length)
    (ha : ∀ r ∈ df.rows, ∀ cell ∈ r, cell.isSome = true)
    (h1 : "SMA_short" ∉ df.cols) :
    setCol df "SMA_short" (rollingMeanOpt 20 (getCol df "close")) = withSmaShort df := by
  unfold setCol withSmaShort
  rw [if_neg h1, getCol_close_eq df hc hr ha, rollingMeanOpt_map_some]
  congr 1
  unfold rollingMean
  rw [closesOf_length, zipWith_eq_range_map _ [] none, List.length_map, List.length_range,
    min_self]
  refine List.map_congr_left ?_
  intro i hi
  rw [List.mem_range] at hi
  rw [getD_range_map _ _ _ _ hi]

/-- The close column is untouched by appending the SMA_short column. -/
theorem getCol_close_after_sma_short (df : Frame) (hc : "close" ∈ df.cols)
    (hr : ∀ r ∈ df.rows, r.length = df.cols.length)
    (ha : ∀ r ∈ df.rows, ∀ cell ∈ r, cell.isSome = true) :
    getCol (withSmaShort df) "close" = (closesOf df).map some := by
  unfold getCol withSmaShort
  simp only [List.map_map]
  have hstep : ∀ i ∈ List.range df.rows.length,
      ((fun r : List (Option ℚ) => r.getD ((df.cols ++ ["SMA_short"]).indexOf "close") none) ∘
        fun i => df.rows.getD i [] ++ [smaCell 20 (closesOf df) i]) i =
      (fun i => (df.rows.getD i []).getD (df.cols.indexOf "close") none) i := by
    intro i hi
    rw [List.mem_range] at hi
    simp only [Function.comp_def]
    rw [indexOf_append_of_mem _ hc]
    have hmem : df.rows.getD i [] ∈ df.rows := by
      rw [List.getD_eq_getElem _ _ hi]
      exact List.getElem_mem hi
    have hidxlt : df.cols.indexOf "close" < (df.rows.getD i []).length := by
      rw [hr _ hmem]
      exact List.indexOf_lt_length.mpr hc
    rw [List.getD_append _ _ _ _ hidxlt]
  rw [List.map_congr_left hstep]
  have hfold : (List.range df.rows.length).map
      (fun i => (df.rows.getD i []).getD (df.cols.indexOf "close") none) =
      df.rows.map (fun r => r.getD (df.cols.indexOf "close") none) := by
    conv_rhs => rw [← map_getD_range ([] : List (Option ℚ)) df.rows, List.map_map]
    rfl
  rw [hfold, ← getCol, getCol_close_eq df hc hr ha]

/-- Shape of the frame after `data['SMA_long'] = ...` as well. -/
theorem setCol_sma_long_eq (df : Frame) (hc : "close" ∈ df.cols)
    (hr : ∀ r ∈ df.rows, r.length = df.cols.length)
    (ha : ∀ r ∈ df.rows, ∀ cell ∈ r, cell.isSome = true)
    (h2 : "SMA_long" ∉ df.cols) :
    setCol (withSmaShort df) "SMA_long"
        (rollingMeanOpt 50 (getCol (withSmaShort df) "close")) = withBothSma df := by
  rw [getCol_close_after_sma_short df hc hr ha, rollingMeanOpt_map_some]
  unfold setCol withSmaShort withBothSma
  have hfresh : "SMA_long" ∉ df.cols ++ ["SMA_short"] := by
    rw [List.mem_append]
    rintro (hx | hx)
    · exact h2 hx
    · rw [List.mem_singleton] at hx
      exact absurd hx (by decide)
  rw [if_neg hfresh]
  congr 1
  · rw [List.append_assoc]
    rfl
  · unfold rollingMean
    rw [closesOf_length, zipWith_eq_range_map _ [] none]
    simp only [List.length_map, List.length_range, min_self]
    refine List.map_congr_left ?_
    intro i hi
    rw [List.mem_range] at hi
    rw [getD_range_map _ _ _ _ hi, getD_range_map _ _ _ _ hi]
    unfold extRow
    rw [List.append_assoc]
    rfl

/-- `dropna` keeps exactly the rows with a full 50-bar window. -/
theorem dropna_ext_eq (df : Frame)
    (ha : ∀ r ∈ df.rows, ∀ cell ∈ r, cell.isSome = true) :
    dropna (withBothSma df) = framePostSignal df := by
  unfold dropna withBothSma framePostSignal
  congr 1
  rw [List.filter_map]
  have hfc : ∀ i ∈ List.range df.rows.length,
      ((fun r : List (Option ℚ) => r.all fun cell => cell.isSome) ∘ extRow df) i =
        decide (49 ≤ i) := by
    intro i hi
    rw [List.mem_range] at hi
    simp only [Function.comp_def]
    unfold extRow
    rw [List.all_append]
    have hallr : (df.rows.getD i []).all (fun cell => cell.isSome) = true := by
      rw [List.all_eq_true]
      intro cell hcell
      have hmem : df.rows.getD i [] ∈ df.rows := by
        rw [List.getD_eq_getElem _ _ hi]
        exact List.getElem_mem hi
      exact ha _ hmem cell hcell
    rw [hallr, Bool.true_and]
    unfold smaCell
    by_cases h49 : 49 ≤ i
    · have h20 : 20 ≤ i + 1 := by omega
      have h50 : 50 ≤ i + 1 := by omega
      simp [h20, h50, h49]
    · have h50 : ¬ 50 ≤ i + 1 := by omega
      by_cases h20 : 20 ≤ i + 1 <;> simp [h20, h50, h49]
  rw [List.filter_congr hfc, range_filter_ge]

/-- Reading the two SMA cells of a post-warm-up extended row. -/
theorem extRow_cells (df : Frame) (hr : ∀ r ∈ df.rows, r.length = df.cols.length)
    (i : Nat) (hi : i < df.rows.length) (h49 : 49 ≤ i) :
    ((extRow df i).getD df.cols.length none).getD 0 = windowAvg 20 (closesOf df) i ∧
    ((extRow df i).getD (df.cols.length + 1) none).getD 0 = windowAvg 50 (closesOf df) i := by
  have hmem : df.rows.getD i [] ∈ df.rows := by
    rw [List.getD_eq_getElem _ _ hi]
    exact List.getElem_mem hi
  have hlen : (df.rows.getD i []).length = df.cols.length := hr _ hmem
  have h20 : 20 ≤ i + 1 := by omega
  have h50 : 50 ≤ i + 1 := by omega
  unfold extRow smaCell
  constructor
  · rw [List.getD_append_right _ _ _ _ (by rw [hlen]), hlen, Nat.sub_self,
      List.getD_cons_zero, if_pos h20, Option.getD_some]
  · rw [List.getD_append_right _ _ _ _ (by rw [hlen]; omega), hlen,
      Nat.add_sub_cancel_left, List.getD_cons_succ, List.getD_cons_zero, if_pos h50,
      Option.getD_some]

/-- C9 (amended): the returned signal is a function of the close series
alone — it equals the close-level crossover computation — but the call is
not pure in its argument: the caller's frame comes back with the two SMA
columns appended and the warm-up rows removed in place.  Stated for
frames with a close column, full-width rows, no NaN cells and no
pre-existing SMA columns. -/
theorem c9_signal_deterministic_frame_mutated (df : Frame)
    (hr : ∀ r ∈ df.rows, r.length = df.cols.length)
    (ha : ∀ r ∈ df.rows, ∀ cell ∈ r, cell.isSome = true)
    (hc : "close" ∈ df.cols)
    (h1 : "SMA_short" ∉ df.cols)
    (h2 : "SMA_long" ∉ df.cols) :
    (check_for_signals df).1.cols = df.cols ++ ["SMA_short", "SMA_long"] ∧
    (check_for_signals df).1.rows.length = df.rows.length - 49 ∧
    (check_for_signals df).2 = check_for_signals_closes (closesOf df) := by
  have hpipe : dropna (setCol (setCol df "SMA_short" (rollingMeanOpt 20 (getCol df "close")))
      "SMA_long" (rollingMeanOpt 50 (getCol (setCol df "SMA_short"
        (rollingMeanOpt 20 (getCol df "close"))) "close"))) = framePostSignal df := by
    rw [setCol_sma_short_eq df hc hr ha h1, setCol_sma_long_eq df hc hr ha h2,
      dropna_ext_eq df ha]
  have hframe : (check_for_signals df).1 = framePostSignal df := by
    unfold check_for_signals
    simp only [hpipe]
    split_ifs <;> rfl
  have hrl : (framePostSignal df).rows.length = df.rows.length - 49 := by
    unfold framePostSignal
    simp
  have hsig : (check_for_signals df).2 = check_for_signals_closes (closesOf df) := by
    unfold check_for_signals check_for_signals_closes
    simp only [hpipe]
    have hcl : (rowsAfterDropna (closesOf df)).length = df.rows.length - 49 := by
      rw [rowsAfterDropna_length, closesOf_length]
    rw [hrl, hcl]
    by_cases hm : df.rows.length - 49 < 2
    · rw [if_pos hm, if_pos hm]
    · rw [if_neg hm, if_neg hm]
      have hn : 51 ≤ df.rows.length := by omega
      have hlast : (framePostSignal df).rows.getD (df.rows.length - 49 - 1) [] =
          extRow df (df.rows.length - 1) := by
        unfold framePostSignal
        rw [List.getD_eq_getElem _ _ (by simp; omega), List.getElem_map, List.getElem_range']
        congr 1
        omega
      have hprev : (framePostSignal df).rows.getD (df.rows.length - 49 - 2) [] =
          extRow df (df.rows.length - 2) := by
        unfold framePostSignal
        rw [List.getD_eq_getElem _ _ (by simp; omega), List.getElem_map, List.getElem_range']
        congr 1
        omega
      have hidxS : (framePostSignal df).cols.indexOf "SMA_short" = df.cols.length := by
        show (df.cols ++ ["SMA_short", "SMA_long"]).indexOf "SMA_short" = df.cols.length
        rw [indexOf_append_of_not_mem _ h1]
        have hz : List.indexOf "SMA_short" ["SMA_short", "SMA_long"] = 0 := by decide
        rw [hz, Nat.add_zero]
      have hidxL : (framePostSignal df).cols.indexOf "SMA_long" = df.cols.length + 1 := by
        show (df.cols ++ ["SMA_short", "SMA_long"]).indexOf "SMA_long" = df.cols.length + 1
        rw [indexOf_append_of_not_mem _ h2]
        have hz : List.indexOf "SMA_long" ["SMA_short", "SMA_long"] = 1 := by decide
        rw [hz]
      obtain ⟨hc20l, hc50l⟩ := extRow_cells df hr (df.rows.length - 1) (by omega) (by omega)
      obtain ⟨hc20p, hc50p⟩ := extRow_cells df hr (df.rows.length - 2) (by omega) (by omega)
      have hrowsR : rowsAfterDropna (closesOf df) =
          (List.range' 49 (df.rows.length - 49)).map
            (fun i => (windowAvg 20 (closesOf df) i, windowAvg 50 (closesOf df) i)) := by
        rw [rowsAfterDropna_eq, closesOf_length]
      have hR1 : (rowsAfterDropna (closesOf df)).getD (df.rows.length - 49 - 1) (0, 0) =
          (windowAvg 20 (closesOf df) (df.rows.length - 1),
           windowAvg 50 (closesOf df) (df.rows.length - 1)) := by
        rw [hrowsR, List.getD_eq_getElem _ _ (by simp; omega), List.getElem_map,
          List.getElem_range']
        have heq : 49 + 1 * (df.rows.length - 49 - 1) = df.rows.length - 1 := by omega
        rw [heq]
      have hR2 : (rowsAfterDropna (closesOf df)).getD (df.rows.length - 49 - 2) (0, 0) =
          (windowAvg 20 (closesOf df) (df.rows.length - 2),
           windowAvg 50 (closesOf df) (df.rows.length - 2)) := by
        rw [hrowsR, List.getD_eq_getElem _ _ (by simp; omega), List.getElem_map,
          List.getElem_range']
        have heq : 49 + 1 * (df.rows.length - 49 - 2) = df.rows.length - 2 := by omega
        rw [heq]
      rw [hlast, hprev, hidxS, hidxL, hc20l, hc50l, hc20p, hc50p, hR1, hR2]
      simp only []
      split_ifs <;> rfl
  exact ⟨by rw [hframe]; rfl, by rw [hframe, hrl], hsig⟩

/-- 51-bar flat frame used as the concrete C9 witness. -/
def c9wFrame : Frame := { cols := ["close"], rows := List.replicate 51 [some 1] }

/-- Witness for C9 (amended) on a concrete 51-bar frame. -/
theorem c9_signal_deterministic_frame_mutated_witness :
    (∀ r ∈ c9wFrame.rows, r.length = c9wFrame.cols.length) ∧
    "close" ∈ c9wFrame.cols ∧
    ((check_for_signals c9wFrame).1.cols = c9wFrame.cols ++ ["SMA_short", "SMA_long"] ∧
     (check_for_signals c9wFrame).1.rows.length = c9wFrame.rows.length - 49 ∧
     (check_for_signals c9wFrame).2 = check_for_signals_closes (closesOf c9wFrame)) :=
  ⟨by decide, by decide,
   c9_signal_deterministic_frame_mutated c9wFrame (by decide) (by decide) (by decide)
     (by decide) (by decide)⟩

/-- One-bar frame used to refute C9 as stated. -/
def c9xFrame : Frame := { cols := ["close"], rows := [[some 1]] }

/-- Counterexample to C9 as stated: computing the signal does not leave
the caller's bar series unchanged — on a one-bar frame the call adds the
two SMA columns and removes the row. -/
theorem c9_counterexample : (check_for_signals c9xFrame).1 ≠ c9xFrame := by decide

end MT5Bot
